import Mathlib

/-!
Verification development for the solar-irradiance forecasting pipeline in
`improved_sarimax_model.py`.

The Python source is shallowly embedded below.  Floating-point values are
modelled as exact rationals (`ℚ`); the transcendental cyclical encodings
(`np.sin` / `np.cos`) are modelled over the reals.  A pandas DataFrame row
becomes a record; a column that can hold `NaN` (the lag and rolling columns
produced by `shift` and `rolling`) becomes an `Option ℚ` field, and
`df.dropna()` keeps exactly the rows in which every such field is `some`.
A fitted model is represented by the outcome of its forecast attempt:
`some f` if `predict`/`forecast` returns the sequence `f`, `none` if it
raises (the `try`/`except` in `ensemble_forecast` catches the exception).
-/

set_option maxRecDepth 20000

/-- One row of the raw input table (the cleaned CSV).  `date` is the 8-digit
`YYYYMMDD` integer; the remaining columns are the raw weather covariates and
the target `irradiance`.  A valid raw table has no missing values, so the
fields are plain rationals. -/
structure RawRow where
  date : ℕ
  Temperature : ℚ
  humidity : ℚ
  wind_speed : ℚ
  irradiance : ℚ
  deriving DecidableEq, Inhabited, Repr

/-- The timestamp obtained by `pd.to_datetime(str(date), format='%Y%m%d')`.
Parsing an 8-digit date yields a midnight timestamp, so the hour component
is 0 by construction. -/
structure Stamp where
  year : ℕ
  month : ℕ
  day : ℕ
  hour : ℕ
  deriving DecidableEq, Repr

/-- Parse the `YYYYMMDD` integer into its calendar components; the time of
day of the resulting pandas timestamp is midnight. -/
def parseYYYYMMDD (d : ℕ) : Stamp :=
  { year := d / 10000, month := d / 100 % 100, day := d % 100, hour := 0 }

/-- Days since 1970-01-01 of a civil date (standard civil-from-days
computation), used to model `DatetimeIndex.dayofweek`. -/
def daysFromCivil (y m d : ℤ) : ℤ :=
  let y2 := if m ≤ 2 then y - 1 else y
  let era := (if 0 ≤ y2 then y2 else y2 - 399) / 400
  let yoe := y2 - era * 400
  let mp := if 2 < m then m - 3 else m + 9
  let doy := (153 * mp + 2) / 5 + d - 1
  let doe := yoe * 365 + yoe / 4 - yoe / 100 + doy
  era * 146097 + doe - 719468

/-- `df.index.dayofweek` (pandas convention: Monday = 0, Sunday = 6).
1970-01-01 was a Thursday (= 3). -/
def dayOfWeekOf (s : Stamp) : ℕ :=
  ((daysFromCivil s.year s.month s.day + 3) % 7).toNat

/-- `df[col].shift(k)` read at position `i` of the column `xs`. -/
def lagAt (xs : List ℚ) (k i : ℕ) : Option ℚ :=
  if k ≤ i then xs[i - k]? else none

/-- The trailing window of width `w` ending at position `i`, as used by
`df[col].rolling(window=w)`; `none` while fewer than `w` observations are
available (pandas default `min_periods = window`). -/
def rollingWindow (xs : List ℚ) (w i : ℕ) : Option (List ℚ) :=
  if w ≤ i + 1 then some ((xs.drop (i + 1 - w)).take w) else none

/-- Arithmetic mean of a list of rationals (`.mean()`). -/
def meanQ (xs : List ℚ) : ℚ := xs.sum / xs.length

/-- Sample variance with pandas' default `ddof = 1`.  The source stores the
rolling standard deviation, i.e. the square root of this quantity; the
missingness pattern and the data dependence of the column are identical, and
no claim uses the numerical value of the standard deviation. -/
def sampleVarQ (xs : List ℚ) : ℚ :=
  (xs.map (fun x => (x - meanQ xs) ^ 2)).sum / ((xs.length : ℚ) - 1)

/-- One row of the engineered table produced by `load_and_preprocess_data`:
the raw columns plus the calendar, interaction, lag and rolling columns.
The cyclical encodings `hour_sin`, `hour_cos`, `month_sin`, `month_cos` are
real-valued functions of the stored `hour` and `month` fields (see
`hour_sin` etc. below). -/
structure EngRow where
  date : ℕ
  Temperature : ℚ
  humidity : ℚ
  wind_speed : ℚ
  irradiance : ℚ
  hour : ℕ
  day_of_week : ℕ
  month : ℕ
  season : ℕ
  is_weekend : ℕ
  temp_humidity : ℚ
  temp_wind : ℚ
  humidity_wind : ℚ
  irradiance_lag1 : Option ℚ
  irradiance_lag24 : Option ℚ
  irradiance_lag168 : Option ℚ
  irradiance_rolling_mean_24h : Option ℚ
  irradiance_rolling_var_24h : Option ℚ
  deriving DecidableEq, Inhabited, Repr

/-- Feature engineering for the row at position `i`, where `irr` is the
whole `irradiance` column of the (date-filtered) table and `r` the raw row
itself.  Mirrors lines 25-49 of the source. -/
def engineerRow (irr : List ℚ) (i : ℕ) (r : RawRow) : EngRow :=
  let ts := parseYYYYMMDD r.date
  let dow := dayOfWeekOf ts
  { date := r.date
    Temperature := r.Temperature
    humidity := r.humidity
    wind_speed := r.wind_speed
    irradiance := r.irradiance
    hour := ts.hour
    day_of_week := dow
    month := ts.month
    season := ts.month % 12 / 3 + 1
    is_weekend := if dow = 5 ∨ dow = 6 then 1 else 0
    temp_humidity := r.Temperature * r.humidity
    temp_wind := r.Temperature * r.wind_speed
    humidity_wind := r.humidity * r.wind_speed
    irradiance_lag1 := lagAt irr 1 i
    irradiance_lag24 := lagAt irr 24 i
    irradiance_lag168 := lagAt irr 168 i
    irradiance_rolling_mean_24h := (rollingWindow irr 24 i).map meanQ
    irradiance_rolling_var_24h := (rollingWindow irr 24 i).map sampleVarQ }

/-- Columnwise feature engineering over the whole table. -/
def engineer (rows : List RawRow) : List EngRow :=
  (List.range rows.length).map (fun i =>
    engineerRow (rows.map (fun r => r.irradiance)) i (rows.getD i default))

/-- A row survives `df.dropna()`: every column that can be `NaN` is present.
On a raw table without missing values, only the lag and rolling columns can
be `NaN`. -/
def rowComplete (e : EngRow) : Bool :=
  e.irradiance_lag1.isSome && e.irradiance_lag24.isSome &&
    e.irradiance_lag168.isSome && e.irradiance_rolling_mean_24h.isSome &&
    e.irradiance_rolling_var_24h.isSome

/-- `df.dropna()` on the engineered table. -/
def dropna (l : List EngRow) : List EngRow := l.filter rowComplete

/-- The configured date window `'2015-01-01' <= index <= '2016-12-31'`;
on valid `YYYYMMDD` integers the datetime comparison coincides with the
integer comparison. -/
def inDateRange (d : ℕ) : Bool := 20150101 ≤ d && d ≤ 20161231

/-- The date-range filter `df = df[(df.index >= ...) & (df.index <= ...)]`. -/
def filterRange (rows : List RawRow) : List RawRow :=
  rows.filter (fun r => inDateRange r.date)

/-- `load_and_preprocess_data`: parse/index (folded into `RawRow.date`),
filter the date window, engineer all derived columns, and drop the rows made
incomplete by the lag/rolling columns. -/
def load_and_preprocess_data (rows : List RawRow) : List EngRow :=
  dropna (engineer (filterRange rows))

/-- `df['hour_sin'] = np.sin(2 * np.pi * df['hour'] / 24)`. -/
noncomputable def hour_sin (h : ℕ) : ℝ := Real.sin (2 * Real.pi * h / 24)

/-- `df['hour_cos'] = np.cos(2 * np.pi * df['hour'] / 24)`. -/
noncomputable def hour_cos (h : ℕ) : ℝ := Real.cos (2 * Real.pi * h / 24)

/-- `df['month_sin'] = np.sin(2 * np.pi * df['month'] / 12)`. -/
noncomputable def month_sin (m : ℕ) : ℝ := Real.sin (2 * Real.pi * m / 12)

/-- `df['month_cos'] = np.cos(2 * np.pi * df['month'] / 12)`. -/
noncomputable def month_cos (m : ℕ) : ℝ := Real.cos (2 * Real.pi * m / 12)

/-- The fixed positional ensemble weight vector `[0.4, 0.3, 0.3]`. -/
def weights : List ℚ := [2/5, 3/10, 3/10]

/-- The combination loop of `ensemble_forecast` over the successful
forecasts: start from `np.zeros(len(forecasts[0]))`; the i-th successful
forecast is added with weight `weights[i]` while `i < len(weights)`, and
with weight `1/len(forecasts)` beyond that. -/
def ensemble_combine (forecasts : List (List ℚ)) : List ℚ :=
  forecasts.enum.foldl
    (fun acc p =>
      if p.1 < weights.length then
        acc.zipWith (fun a b => a + weights.getD p.1 0 * b) p.2
      else
        acc.zipWith (fun a b => a + b / (forecasts.length : ℚ)) p.2)
    (List.replicate (forecasts.headD []).length (0 : ℚ))

/-- `ensemble_forecast(models, test_exog, n_periods)`.  Each model is
represented by the outcome of its forecast attempt (`some f`, or `none` when
`predict`/`forecast` raised and the `except` branch dropped the model).  The
successful forecasts are combined; if none succeeded the function returns
`None`. -/
def ensemble_forecast (models : List (Option (List ℚ))) : Option (List ℚ) :=
  let forecasts := models.filterMap id
  if forecasts.isEmpty then none else some (ensemble_combine forecasts)

/-- The forecast-producing step of `main` (lines 251 and 323-338): take the
ensemble result if it is not `None`; otherwise `best_model = models[0]` and
the final forecast is whatever that first model's own forecast attempt
yields. -/
def main_forecast (models : List (Option (List ℚ))) : Option (List ℚ) :=
  match ensemble_forecast models with
  | some r => some r
  | none => models.headD none

/-- `sklearn.model_selection.TimeSeriesSplit(n_splits).split(range(n_samples))`
(default `test_size`, no gap), as called by `cross_validation_sarimax`:
`test_size = n_samples // (n_splits + 1)` and the k-th fold is
`(indices[:test_start], indices[test_start : test_start + test_size])` with
`test_start = n_samples - (n_splits - k) * test_size`. -/
def timeSeriesSplit (n_splits n_samples : ℕ) : List (List ℕ × List ℕ) :=
  let n_folds := n_splits + 1
  let test_size := n_samples / n_folds
  (List.range n_splits).map (fun k =>
    let test_start := n_samples - n_splits * test_size + k * test_size
    (List.range test_start, (List.range test_size).map (fun j => test_start + j)))

/-- The train/validation index folds used by `cross_validation_sarimax` on a
table with `n_rows` rows. -/
def cross_validation_folds (n_rows n_splits : ℕ) : List (List ℕ × List ℕ) :=
  timeSeriesSplit n_splits n_rows

/-- Look up a named column of a training table (a list of
(column name, column values) pairs). -/
def getCol (train : List (String × List ℚ)) (c : String) : List ℚ :=
  ((train.find? (fun p => p.1 == c)).map Prod.snd).getD []

/-- Population covariance of two columns, the building block of pandas
`DataFrame.corr` (the `1/n` vs `1/(n-1)` normalisation cancels in the
correlation ratio). -/
def covQ (xs ys : List ℚ) : ℚ :=
  ((xs.zip ys).map (fun p => (p.1 - meanQ xs) * (p.2 - meanQ ys))).sum / (xs.length : ℚ)

/-- Variance of a column (same normalisation as `covQ`). -/
def varQ (xs : List ℚ) : ℚ := covQ xs xs

/-- `|corr(xs, ys)| > t` for `t ≥ 0`, written without square roots:
`corr = cov / sqrt(var·var)`, so the comparison is equivalent to
`t² · var(xs) · var(ys) < cov(xs,ys)²` plus nonzero variances (pandas yields
`NaN` for a zero-variance column and `NaN > t` is false). -/
def absCorrGt (xs ys : List ℚ) (t : ℚ) : Bool :=
  (varQ xs != 0) && (varQ ys != 0) &&
    decide (t ^ 2 * (varQ xs * varQ ys) < covQ xs ys ^ 2)

/-- `feature_selection_analysis(train_data, target_col)`, returning the
selected feature list (the union of the three criteria).  The mutual
information and F-statistic scores are produced by sklearn library calls
(`mutual_info_regression`, `f_regression`) and enter as score-function
parameters; both are computed over `feature_cols`, which excludes the
target.  The correlation criterion is computed over
`feature_cols + [target_col]`, exactly as the source builds `corr_matrix`
from `train_data[feature_cols + [target_col]]` and thresholds the whole
column `corr_matrix[target_col].abs() > 0.1`. -/
def feature_selection_analysis (mi_score f_score : String → ℚ)
    (train : List (String × List ℚ)) (target_col : String) : List String :=
  let feature_cols := (train.map Prod.fst).filter (fun c => c != target_col)
  let top_mi_features := feature_cols.filter (fun c => decide (1/100 < mi_score c))
  let corr_index := feature_cols ++ [target_col]
  let top_corr_features := corr_index.filter
    (fun c => absCorrGt (getCol train c) (getCol train target_col) (1/10))
  let top_f_features := feature_cols.filter (fun c => decide (10 < f_score c))
  (top_mi_features ++ top_corr_features ++ top_f_features).dedup

/-- Number of days of each month of 2015 (not a leap year); used to lay out
consecutive valid dates for the concrete tables below. -/
def monthLen2015 : ℕ → ℕ
  | 2 => 28
  | 4 => 30
  | 6 => 30
  | 9 => 30
  | 11 => 30
  | _ => 31

/-- The valid `YYYYMMDD` integers of the first seven months of 2015, in
chronological order (212 dates, all inside the configured window). -/
def dates2015 : List ℕ :=
  ([1, 2, 3, 4, 5, 6, 7].map (fun m =>
    (List.range (monthLen2015 m)).map (fun d => 20150000 + m * 100 + (d + 1)))).flatten

/-- A raw row with all weather covariates and the target equal to 1. -/
def mk1 (d : ℕ) : RawRow :=
  { date := d, Temperature := 1, humidity := 1, wind_speed := 1, irradiance := 1 }

/-- A 169-row raw table of consecutive 2015 dates with constant values: the
smallest table for which the engineered output is nonempty. -/
def table169 : List RawRow := (dates2015.take 169).map mk1

/-- `table169` with the `Temperature` value changed (1 → 7) at position 168
only; dates and all target values are unchanged.  The date at position 168
of `dates2015` is 20150618 (151 days in January-May 2015 plus 17), so this
table differs from `table169` exactly at position 168 — the time of the
first row surviving `dropna`. -/
def tableB169 : List RawRow :=
  (dates2015.take 169).map (fun d =>
    if d = 20150618 then { mk1 d with Temperature := 7 } else mk1 d)

/-- A 170-row constant table extending `table169` by one more date. -/
def table170A : List RawRow := (dates2015.take 170).map mk1

/-- `table170A` with the `Temperature` value changed at the last position
(169) only — the date at position 169 of `dates2015` is 20150619 — i.e.
changed strictly after the time of output row 0. -/
def table170B : List RawRow :=
  (dates2015.take 170).map (fun d =>
    if d = 20150619 then { mk1 d with Temperature := 7 } else mk1 d)

/-- 24 rational values tracing one period of a sinusoid (a two-decimal
discretisation of `sin(2*pi*i/24)`), the clean periodic target of the
48-row scenario. -/
def sinApprox24 : List ℚ :=
  [0, 26/100, 1/2, 71/100, 87/100, 97/100, 1, 97/100, 87/100, 71/100, 1/2,
   26/100, 0, -26/100, -1/2, -71/100, -87/100, -97/100, -1, -97/100, -87/100,
   -71/100, -1/2, -26/100]

/-- A deterministic pseudo-noise sequence for the covariates of the 48-row
scenario. -/
def noiseQ (i : ℕ) : ℚ := (((i * i * 37 + 11) % 17 : ℕ) : ℚ) / 10

/-- The 48-row synthetic series of the scenario: consecutive 2015 dates, a
clean 24-periodic sinusoidal target and noise covariates. -/
def table48 : List RawRow :=
  (List.range 48).map (fun i =>
    { date := dates2015.getD i 20150101
      Temperature := noiseQ i
      humidity := noiseQ (i + 5)
      wind_speed := noiseQ (i + 9)
      irradiance := sinApprox24.getD (i % 24) 0 })

/-- A small training table (three columns, four rows) with a nonconstant
target column, used as the failing input for the feature-selection claim. -/
def fsTable : List (String × List ℚ) :=
  [("Temperature", [15, 18, 21, 17]),
   ("humidity", [80, 70, 60, 75]),
   ("irradiance", [100, 250, 420, 180])]

/-- The engineered row at position 168 of `table169` — the single row of
`load_and_preprocess_data table169` (used as a concrete output row). -/
def e0 : EngRow :=
  engineerRow (table169.map (fun r => r.irradiance)) 168 (table169.getD 168 default)

/-! ## Structural lemmas about the feature-engineering pipeline -/

/-- The engineered table is the positionwise image of the raw table. -/
theorem engineer_getElem? (rows : List RawRow) (i : ℕ) :
    (engineer rows)[i]? =
      if i < rows.length then
        some (engineerRow (rows.map (fun r => r.irradiance)) i (rows.getD i default))
      else none := by
  unfold engineer
  rw [List.getElem?_map]
  by_cases h : i < rows.length
  · rw [List.getElem?_range h, if_pos h, Option.map_some']
  · rw [List.getElem?_eq_none_iff.mpr (by simpa using Nat.le_of_not_lt h), if_neg h,
      Option.map_none']

/-- A row of the engineered table survives `dropna` exactly when its
position is at least 168: the 1/24/168-step lags need positions `≥ 1`,
`≥ 24`, `≥ 168` respectively and the 24-step rolling window needs `≥ 23`,
so the 168-step lag is binding. -/
theorem rowComplete_engineerRow (irr : List ℚ) (i : ℕ) (r : RawRow)
    (hi : i < irr.length) :
    rowComplete (engineerRow irr i r) = decide (168 ≤ i) := by
  unfold rowComplete engineerRow lagAt rollingWindow
  by_cases h : 168 ≤ i
  · have h1 : 1 ≤ i := by omega
    have h24 : 24 ≤ i := by omega
    have h23 : 24 ≤ i + 1 := by omega
    have e1 : irr[i - 1]? = some irr[i - 1] := List.getElem?_eq_getElem (by omega)
    have e24 : irr[i - 24]? = some irr[i - 24] := List.getElem?_eq_getElem (by omega)
    have e168 : irr[i - 168]? = some irr[i - 168] := List.getElem?_eq_getElem (by omega)
    simp [h, h1, h24, h23, e1, e24, e168]
  · have : ¬ (168 ≤ i) := h
    simp [this]

/-- Filtering `range n` by `k ≤ ·` keeps the tail `[k, n)`. -/
theorem range_filter_ge (n k : ℕ) :
    (List.range n).filter (fun i => decide (k ≤ i)) = List.range' k (n - k) := by
  rcases Nat.le_total k n with h | h
  · have hsplit : List.range n = List.range' 0 k ++ List.range' k (n - k) := by
      rw [List.range_eq_range']
      have happ := List.range'_append_1 0 k (n - k)
      simp only [Nat.zero_add] at happ
      rw [happ]
      congr 1
      omega
    rw [hsplit, List.filter_append]
    have h1 : (List.range' 0 k).filter (fun i => decide (k ≤ i)) = [] := by
      refine List.filter_eq_nil_iff.mpr ?_
      intro a ha
      obtain ⟨i, hik, rfl⟩ := List.mem_range'.mp ha
      simp
      omega
    have h2 : (List.range' k (n - k)).filter (fun i => decide (k ≤ i)) =
        List.range' k (n - k) := by
      refine List.filter_eq_self.mpr ?_
      intro a ha
      obtain ⟨i, hik, rfl⟩ := List.mem_range'.mp ha
      simp
    rw [h1, h2, List.nil_append]
  · have h0 : n - k = 0 := Nat.sub_eq_zero_of_le h
    rw [h0]
    refine List.filter_eq_nil_iff.mpr ?_
    intro a ha
    have := List.mem_range.mp ha
    simp
    omega

/-- `load_and_preprocess_data` on an in-window table is the engineered image
of the raw positions from 168 on. -/
theorem load_eq (rows : List RawRow)
    (hin : ∀ r ∈ rows, inDateRange r.date = true) :
    load_and_preprocess_data rows =
      (List.range' 168 (rows.length - 168)).map (fun i =>
        engineerRow (rows.map (fun r => r.irradiance)) i (rows.getD i default)) := by
  have hfil : filterRange rows = rows := List.filter_eq_self.mpr hin
  unfold load_and_preprocess_data dropna
  rw [hfil]
  unfold engineer
  rw [List.filter_map]
  congr 1
  have hcong : (List.range rows.length).filter
      (rowComplete ∘ fun i =>
        engineerRow (rows.map (fun r => r.irradiance)) i (rows.getD i default)) =
      (List.range rows.length).filter (fun i => decide (168 ≤ i)) := by
    refine List.filter_congr ?_
    intro i hi
    have hi' : i < rows.length := List.mem_range.mp hi
    exact rowComplete_engineerRow _ i _ (by simpa using hi')
  rw [hcong, range_filter_ge]

/-- Positionwise description of the final output: row `j` of the output is
the engineered row at raw position `168 + j`. -/
theorem load_getElem? (rows : List RawRow)
    (hin : ∀ r ∈ rows, inDateRange r.date = true) (j : ℕ) :
    (load_and_preprocess_data rows)[j]? =
      if j < rows.length - 168 then
        some (engineerRow (rows.map (fun r => r.irradiance)) (168 + j)
          (rows.getD (168 + j) default))
      else none := by
  rw [load_eq rows hin, List.getElem?_map]
  by_cases hj : j < rows.length - 168
  · rw [List.getElem?_range' _ _ hj, if_pos hj, Option.map_some']
    norm_num
  · rw [List.getElem?_eq_none_iff.mpr (by simp [List.length_range']; omega), if_neg hj,
      Option.map_none']

/-- The output has exactly `rows.length - 168` rows. -/
theorem load_length (rows : List RawRow)
    (hin : ∀ r ∈ rows, inDateRange r.date = true) :
    (load_and_preprocess_data rows).length = rows.length - 168 := by
  rw [load_eq rows hin, List.length_map, List.length_range']

/-- C4: for every raw table with no missing values (total rational fields),
dates inside the configured window, and at least `max({1,24,168}, 24) = 168`
rows, the engineered output consists exactly of the input rows from position
168 onward — it has `rows.length - 168` rows, row `j` carries the raw values
of input row `168 + j` — and no surviving row is missing a value in any lag-
or rolling-derived column. -/
theorem c4_window_drop (rows : List RawRow) (hlen : 168 ≤ rows.length)
    (hin : ∀ r ∈ rows, inDateRange r.date = true) :
    (load_and_preprocess_data rows).length = rows.length - 168 ∧
    ∀ j e, (load_and_preprocess_data rows)[j]? = some e →
      e.date = (rows.getD (168 + j) default).date ∧
      e.Temperature = (rows.getD (168 + j) default).Temperature ∧
      e.humidity = (rows.getD (168 + j) default).humidity ∧
      e.wind_speed = (rows.getD (168 + j) default).wind_speed ∧
      e.irradiance = (rows.getD (168 + j) default).irradiance ∧
      e.irradiance_lag1.isSome = true ∧
      e.irradiance_lag24.isSome = true ∧
      e.irradiance_lag168.isSome = true ∧
      e.irradiance_rolling_mean_24h.isSome = true ∧
      e.irradiance_rolling_var_24h.isSome = true := by
  refine ⟨load_length rows hin, ?_⟩
  intro j e he
  rw [load_getElem? rows hin j] at he
  by_cases hj : j < rows.length - 168
  · rw [if_pos hj] at he
    have he' := Option.some.inj he
    subst he'
    have hidx : 168 + j < rows.length := by omega
    refine ⟨rfl, rfl, rfl, rfl, rfl, ?_, ?_, ?_, ?_, ?_⟩
    · show (lagAt (rows.map (fun r => r.irradiance)) 1 (168 + j)).isSome = true
      unfold lagAt
      rw [if_pos (by omega),
        List.getElem?_eq_getElem (show 168 + j - 1 < (rows.map (fun r => r.irradiance)).length by simp; omega)]
      rfl
    · show (lagAt (rows.map (fun r => r.irradiance)) 24 (168 + j)).isSome = true
      unfold lagAt
      rw [if_pos (by omega),
        List.getElem?_eq_getElem (show 168 + j - 24 < (rows.map (fun r => r.irradiance)).length by simp; omega)]
      rfl
    · show (lagAt (rows.map (fun r => r.irradiance)) 168 (168 + j)).isSome = true
      unfold lagAt
      rw [if_pos (by omega),
        List.getElem?_eq_getElem (show 168 + j - 168 < (rows.map (fun r => r.irradiance)).length by simp; omega)]
      rfl
    · show ((rollingWindow (rows.map (fun r => r.irradiance)) 24 (168 + j)).map meanQ).isSome = true
      unfold rollingWindow
      rw [if_pos (by omega)]
      rfl
    · show ((rollingWindow (rows.map (fun r => r.irradiance)) 24 (168 + j)).map sampleVarQ).isSome = true
      unfold rollingWindow
      rw [if_pos (by omega)]
      rfl
  · rw [if_neg hj] at he
    exact absurd he (by simp)

/-- Witness for C4 at the concrete 169-row table: both hypotheses hold and
the conclusion is obtained from `c4_window_drop` itself. -/
theorem c4_window_drop_witness :
    (168 ≤ table169.length ∧ ∀ r ∈ table169, inDateRange r.date = true) ∧
    ((load_and_preprocess_data table169).length = table169.length - 168 ∧
    ∀ j e, (load_and_preprocess_data table169)[j]? = some e →
      e.date = (table169.getD (168 + j) default).date ∧
      e.Temperature = (table169.getD (168 + j) default).Temperature ∧
      e.humidity = (table169.getD (168 + j) default).humidity ∧
      e.wind_speed = (table169.getD (168 + j) default).wind_speed ∧
      e.irradiance = (table169.getD (168 + j) default).irradiance ∧
      e.irradiance_lag1.isSome = true ∧
      e.irradiance_lag24.isSome = true ∧
      e.irradiance_lag168.isSome = true ∧
      e.irradiance_rolling_mean_24h.isSome = true ∧
      e.irradiance_rolling_var_24h.isSome = true) :=
  ⟨⟨by decide, by decide⟩, c4_window_drop table169 (by decide) (by decide)⟩

/-- C9: for every row of the engineered output, the cyclical encodings
satisfy `hour_sin² + hour_cos² = 1` and `month_sin² + month_cos² = 1`
exactly, over real arithmetic. -/
theorem c9_cyclical_identity (rows : List RawRow) (e : EngRow)
    (_he : e ∈ load_and_preprocess_data rows) :
    hour_sin e.hour ^ 2 + hour_cos e.hour ^ 2 = 1 ∧
    month_sin e.month ^ 2 + month_cos e.month ^ 2 = 1 := by
  unfold hour_sin hour_cos month_sin month_cos
  exact ⟨Real.sin_sq_add_cos_sq _, Real.sin_sq_add_cos_sq _⟩

/-- Witness for C9: the single output row of the concrete 169-row table. -/
theorem c9_cyclical_identity_witness :
    e0 ∈ load_and_preprocess_data table169 ∧
    (hour_sin e0.hour ^ 2 + hour_cos e0.hour ^ 2 = 1 ∧
     month_sin e0.month ^ 2 + month_cos e0.month ^ 2 = 1) := by
  have h1 : (load_and_preprocess_data table169)[0]? = some e0 := by
    rw [load_getElem? table169 (by decide) 0, if_pos (by decide)]
    rfl
  have hm := List.getElem?_mem h1
  exact ⟨hm, c9_cyclical_identity table169 e0 hm⟩

/-- C10: every timestamp parsed from an 8-digit `YYYYMMDD` integer falls at
midnight, so in every output row the `hour` column is 0, `hour_sin` is 0 and
`hour_cos` is 1 — the hour-of-day features are constant for any input. -/
theorem c10_hour_constant (rows : List RawRow) (e : EngRow)
    (he : e ∈ load_and_preprocess_data rows) :
    e.hour = 0 ∧ hour_sin e.hour = 0 ∧ hour_cos e.hour = 1 := by
  have hh : e.hour = 0 := by
    unfold load_and_preprocess_data dropna at he
    have he2 := List.mem_of_mem_filter he
    unfold engineer at he2
    rw [List.mem_map] at he2
    obtain ⟨i, _, hi⟩ := he2
    rw [← hi]
    rfl
  refine ⟨hh, ?_, ?_⟩ <;> rw [hh]
  · unfold hour_sin
    norm_num
  · unfold hour_cos
    norm_num

/-- Witness for C10: the single output row of the concrete 169-row table. -/
theorem c10_hour_constant_witness :
    e0 ∈ load_and_preprocess_data table169 ∧
    (e0.hour = 0 ∧ hour_sin e0.hour = 0 ∧ hour_cos e0.hour = 1) := by
  have h1 : (load_and_preprocess_data table169)[0]? = some e0 := by
    rw [load_getElem? table169 (by decide) 0, if_pos (by decide)]
    rfl
  have hm := List.getElem?_mem h1
  exact ⟨hm, c10_hour_constant table169 e0 hm⟩

/-- The engineered row at position `i` is determined by the raw rows at
positions `≤ i`: the own-row columns read position `i`, the lags read
positions `i - k`, and the trailing rolling window reads positions
`i-23 .. i`.  Nothing reads past `i`. -/
theorem engineerRow_agree (rows₁ rows₂ : List RawRow) (i : ℕ)
    (hagree : ∀ m ≤ i, rows₁[m]? = rows₂[m]?) :
    engineerRow (rows₁.map (fun r => r.irradiance)) i (rows₁.getD i default) =
    engineerRow (rows₂.map (fun r => r.irradiance)) i (rows₂.getD i default) := by
  have hr : rows₁.getD i default = rows₂.getD i default := by
    rw [List.getD_eq_getElem?_getD, List.getD_eq_getElem?_getD, hagree i le_rfl]
  have hlag : ∀ k, lagAt (rows₁.map (fun r => r.irradiance)) k i =
      lagAt (rows₂.map (fun r => r.irradiance)) k i := by
    intro k
    unfold lagAt
    by_cases hk : k ≤ i
    · rw [if_pos hk, if_pos hk, List.getElem?_map, List.getElem?_map,
        hagree (i - k) (Nat.sub_le i k)]
    · rw [if_neg hk, if_neg hk]
  have hwin : rollingWindow (rows₁.map (fun r => r.irradiance)) 24 i =
      rollingWindow (rows₂.map (fun r => r.irradiance)) 24 i := by
    unfold rollingWindow
    by_cases h24 : 24 ≤ i + 1
    · rw [if_pos h24, if_pos h24]
      congr 1
      refine List.ext_getElem?_iff.mpr ?_
      intro m
      rw [List.getElem?_take, List.getElem?_take]
      by_cases hm : m < 24
      · rw [if_pos hm, if_pos hm, List.getElem?_drop, List.getElem?_drop,
          List.getElem?_map, List.getElem?_map, hagree (i + 1 - 24 + m) (by omega)]
      · rw [if_neg hm, if_neg hm]
    · rw [if_neg h24, if_neg h24]
  unfold engineerRow
  rw [hr, hlag 1, hlag 24, hlag 168, hwin]

/-- C1 (amended): two-run noninterference of `load_and_preprocess_data` with
the time bound strictly after `t`.  For two in-window raw tables of equal
length that agree at every position up to and including `168 + j` — the raw
time of output row `j` — output row `j` is identical; i.e. changing input
values (any column) only at times strictly greater than `t` leaves every
engineered feature at row `t` unchanged. -/
theorem c1_no_future_dependence (rows₁ rows₂ : List RawRow) (j : ℕ)
    (hlen : rows₁.length = rows₂.length)
    (hin₁ : ∀ r ∈ rows₁, inDateRange r.date = true)
    (hin₂ : ∀ r ∈ rows₂, inDateRange r.date = true)
    (hagree : ∀ i ≤ 168 + j, rows₁[i]? = rows₂[i]?) :
    (load_and_preprocess_data rows₁)[j]? = (load_and_preprocess_data rows₂)[j]? := by
  rw [load_getElem? rows₁ hin₁ j, load_getElem? rows₂ hin₂ j, hlen]
  by_cases hj : j < rows₂.length - 168
  · rw [if_pos hj, if_pos hj]
    exact congrArg some (engineerRow_agree rows₁ rows₂ (168 + j) hagree)
  · rw [if_neg hj, if_neg hj]

/-- Counterexample to C1 as stated: `table169` and `tableB169` are valid
in-window tables that agree at every position strictly before 168, agree on
the whole target column and the whole date column, and differ only in the
non-target value `Temperature` at position 168 — the raw time `t` of output
row 0.  Yet output row 0 (the row at time `t`) differs (its `temp_humidity`
feature changes), so a feature at row `t` does depend on non-target data at
time `≥ t` (namely at time `t` itself), falsifying the claim as stated. -/
theorem c1_counterexample :
    List.take 168 table169 = List.take 168 tableB169 ∧
    table169.map (fun r => r.irradiance) = tableB169.map (fun r => r.irradiance) ∧
    table169.map (fun r => r.date) = tableB169.map (fun r => r.date) ∧
    (∀ r ∈ table169, inDateRange r.date = true) ∧
    (∀ r ∈ tableB169, inDateRange r.date = true) ∧
    (load_and_preprocess_data table169)[0]? ≠ (load_and_preprocess_data tableB169)[0]? := by
  refine ⟨by decide, by decide, by decide, by decide, by decide, ?_⟩
  rw [load_getElem? table169 (by decide) 0, load_getElem? tableB169 (by decide) 0,
    if_pos (by decide), if_pos (by decide)]
  intro hcontra
  have h3 := Option.some.inj hcontra
  have h4 := congrArg EngRow.temp_humidity h3
  have hA : table169.getD (168 + 0) default = mk1 20150618 := by decide
  have hB : tableB169.getD (168 + 0) default = { mk1 20150618 with Temperature := 7 } := by
    decide
  rw [hA, hB] at h4
  have h5 : (1 : ℚ) * 1 = 7 * 1 := h4
  norm_num at h5

/-- Witness for the amended C1: `table170A` and `table170B` differ only at
position 169, strictly after time `168 + 0`; the hypotheses hold at `j = 0`
and the theorem yields equal output rows 0. -/
theorem c1_no_future_dependence_witness :
    (table170A.length = table170B.length ∧
     (∀ r ∈ table170A, inDateRange r.date = true) ∧
     (∀ r ∈ table170B, inDateRange r.date = true) ∧
     (∀ i ≤ 168 + 0, table170A[i]? = table170B[i]?)) ∧
    (load_and_preprocess_data table170A)[0]? = (load_and_preprocess_data table170B)[0]? :=
  ⟨⟨by decide, by decide, by decide, by decide⟩,
   c1_no_future_dependence table170A table170B 0 (by decide) (by decide) (by decide)
     (by decide)⟩

/-- Counterexample to C5 as stated: on the 48-row synthetic series the
number of dropped rows is `48 - 0 = 48`, not 167 — a 48-row table cannot
retain any row, because the 168-step lag is undefined at every position. -/
theorem c5_counterexample :
    table48.length - (load_and_preprocess_data table48).length ≠ 167 := by
  rw [load_length table48 (by decide)]
  decide

/-- C5 (amended): on the 48-row synthetic hourly series with a clean
sinusoidal target and noise covariates, `load_and_preprocess_data` drops all
48 rows (the 168-step lag exceeds the table length), leaving an empty
output; "every remaining row has zero missing values" holds vacuously. -/
theorem c5_all_rows_dropped :
    table48.length = 48 ∧ load_and_preprocess_data table48 = [] := by
  refine ⟨by decide, ?_⟩
  rw [load_eq table48 (by decide)]
  have h : table48.length - 168 = 0 := by decide
  rw [h]
  rfl

/-- Adding `c · xs` into a zero vector of matching length is `c · xs`. -/
theorem zipWith_add_mul_replicate_zero (c : ℚ) (xs : List ℚ) :
    List.zipWith (fun a b => a + c * b) (List.replicate xs.length (0 : ℚ)) xs =
      xs.map (fun x => c * x) := by
  induction xs with
  | nil => rfl
  | cons x xs ih =>
    simp only [List.length_cons, List.replicate_succ, List.zipWith_cons_cons,
      List.map_cons, zero_add, ih]

/-- C2 (amended): when exactly one of the three models produces a forecast
`f`, `ensemble_forecast` returns `0.4 · f` elementwise — the sole surviving
forecast sits at position 0 of the successful-forecast list and receives the
positional weight `weights[0] = 0.4`; the remaining weight mass is simply
not assigned (no renormalisation), so the result is not `f` itself. -/
theorem c2_single_survivor (models : List (Option (List ℚ))) (f : List ℚ)
    (_hlen : models.length = 3) (hone : models.filterMap id = [f]) :
    ensemble_forecast models = some (f.map (fun x => 2/5 * x)) := by
  unfold ensemble_forecast
  rw [hone]
  have hcomb : ensemble_combine [f] = f.map (fun x => 2/5 * x) := by
    unfold ensemble_combine
    have h1 : ([f]).enum = [(0, f)] := rfl
    rw [h1]
    simp only [List.foldl_cons, List.foldl_nil, List.headD]
    rw [if_pos (show 0 < weights.length by decide)]
    have hw : weights.getD 0 0 = 2/5 := rfl
    rw [hw]
    exact zipWith_add_mul_replicate_zero (2/5) f
  simp only [List.isEmpty_cons, Bool.false_eq_true, if_false, hcomb]

/-- Witness for the amended C2: two models fail, the third returns `[10]`;
the ensemble is `[4] = 0.4 · [10]`. -/
theorem c2_single_survivor_witness :
    (([none, none, some [10]] : List (Option (List ℚ))).length = 3 ∧
     ([none, none, some [10]] : List (Option (List ℚ))).filterMap id = [[10]]) ∧
    ensemble_forecast [none, none, some [10]] = some ([(10 : ℚ)].map (fun x => 2/5 * x)) :=
  ⟨⟨by decide, by rfl⟩, c2_single_survivor [none, none, some [10]] [10] (by decide) (by rfl)⟩

/-- Counterexample to C2 as stated: with two failing models and one
surviving forecast `[10]`, the returned sequence is `[4]`, not the surviving
model's raw forecast `[10]`. -/
theorem c2_counterexample :
    ([none, none, some [10]] : List (Option (List ℚ))).filterMap id = [[10]] ∧
    ensemble_forecast [none, none, some [10]] ≠ some [10] := by
  constructor
  · rfl
  · with_unfolding_all decide

/-- C7: if every model's forecast attempt fails, `ensemble_forecast` returns
the null result (`None`); each per-model failure is caught inside the loop,
so no exception escapes — in the embedding the function is total and the
all-failure case is the `None` branch. -/
theorem c7_total_failure (models : List (Option (List ℚ)))
    (h : ∀ m ∈ models, m = none) :
    ensemble_forecast models = none := by
  have hnil : models.filterMap id = [] :=
    List.filterMap_eq_nil_iff.mpr (fun a ha => h a ha)
  unfold ensemble_forecast
  rw [hnil]
  rfl

/-- Witness for C7: three failing models yield `None`. -/
theorem c7_total_failure_witness :
    (∀ m ∈ ([none, none, none] : List (Option (List ℚ))), m = none) ∧
    ensemble_forecast ([none, none, none] : List (Option (List ℚ))) = none :=
  ⟨by decide, c7_total_failure [none, none, none] (by decide)⟩

/-- C8: whenever `ensemble_forecast` returns the null result, `main` falls
back to the model at index 0 of the model list unconditionally — the final
forecast is whatever that first model's own forecast attempt yields, with no
check that the attempt succeeded (here `a` may itself be `none`). -/
theorem c8_fallback_first_model (models : List (Option (List ℚ)))
    (a : Option (List ℚ)) (hens : ensemble_forecast models = none)
    (h0 : models[0]? = some a) :
    main_forecast models = a := by
  unfold main_forecast
  rw [hens]
  cases models with
  | nil => simp at h0
  | cons m ms =>
    have hm : m = a := by simpa using h0
    rw [← hm]
    rfl

/-- Witness for C8: all three models fail; the ensemble is `None` and `main`
falls back to model 0, whose own attempt also failed (`none`) — the fallback
is applied without checking that model 0 succeeded. -/
theorem c8_fallback_first_model_witness :
    (ensemble_forecast ([none, none, none] : List (Option (List ℚ))) = none ∧
     ([none, none, none] : List (Option (List ℚ)))[0]? = some none) ∧
    main_forecast ([none, none, none] : List (Option (List ℚ))) = none :=
  ⟨⟨by rfl, by rfl⟩, c8_fallback_first_model [none, none, none] none (by rfl) (by rfl)⟩

/-- C6: the folds of `timeSeriesSplit` (as used by
`cross_validation_sarimax`) are strictly time-ordered and expanding: every
fold has a nonempty training slice `[0, test_start)` and a nonempty
validation slice `[test_start, test_start + test_size)` with every training
index strictly below every validation index, and each successive fold's
training slice contains the previous fold's training slice. -/
theorem c6_fold_ordering (n_splits n_samples : ℕ) (h1 : 1 ≤ n_splits)
    (h2 : n_splits + 1 ≤ n_samples) :
    (∀ fold ∈ timeSeriesSplit n_splits n_samples,
      fold.1 ≠ [] ∧ fold.2 ≠ [] ∧ ∀ a ∈ fold.1, ∀ b ∈ fold.2, a < b) ∧
    (∀ k, k + 1 < (timeSeriesSplit n_splits n_samples).length →
      ∀ x, x ∈ ((timeSeriesSplit n_splits n_samples).getD k ([], [])).1 →
        x ∈ ((timeSeriesSplit n_splits n_samples).getD (k + 1) ([], [])).1) := by
  have hts : 1 ≤ n_samples / (n_splits + 1) :=
    (Nat.one_le_div_iff (by omega)).mpr h2
  have hmul0 : n_samples / (n_splits + 1) * (n_splits + 1) ≤ n_samples :=
    Nat.div_mul_le_self n_samples (n_splits + 1)
  have hmul : n_splits * (n_samples / (n_splits + 1)) < n_samples := by
    have hexp : n_samples / (n_splits + 1) * (n_splits + 1) =
        n_splits * (n_samples / (n_splits + 1)) + n_samples / (n_splits + 1) := by
      ring
    omega
  constructor
  · intro fold hfold
    unfold timeSeriesSplit at hfold
    simp only [List.mem_map, List.mem_range] at hfold
    obtain ⟨k, hk, rfl⟩ := hfold
    refine ⟨?_, ?_, ?_⟩
    · simp only [ne_eq, List.range_eq_nil]
      omega
    · simp only [ne_eq, List.map_eq_nil_iff, List.range_eq_nil]
      omega
    · intro a ha b hb
      have ha' := List.mem_range.mp ha
      simp only [List.mem_map, List.mem_range] at hb
      obtain ⟨j, _, rfl⟩ := hb
      omega
  · intro k hklen x hx
    unfold timeSeriesSplit at hklen hx ⊢
    simp only [List.length_map, List.length_range] at hklen
    rw [List.getD_eq_getElem?_getD, List.getElem?_map,
      List.getElem?_range (show k < n_splits by omega)] at hx
    rw [List.getD_eq_getElem?_getD, List.getElem?_map,
      List.getElem?_range (show k + 1 < n_splits by omega)]
    simp only [Option.map_some', Option.getD_some] at hx ⊢
    have hx' := List.mem_range.mp hx
    refine List.mem_range.mpr ?_
    have hstep : (k : ℕ) * (n_samples / (n_splits + 1)) ≤
        (k + 1) * (n_samples / (n_splits + 1)) :=
      Nat.mul_le_mul_right _ (by omega)
    omega

/-- Witness for C6 at the concrete call of the source
(`n_splits = 5`, here on 12 samples): hypotheses hold and the conclusion is
the instance of `c6_fold_ordering`. -/
theorem c6_fold_ordering_witness :
    (1 ≤ 5 ∧ 5 + 1 ≤ 12) ∧
    ((∀ fold ∈ timeSeriesSplit 5 12,
      fold.1 ≠ [] ∧ fold.2 ≠ [] ∧ ∀ a ∈ fold.1, ∀ b ∈ fold.2, a < b) ∧
    (∀ k, k + 1 < (timeSeriesSplit 5 12).length →
      ∀ x, x ∈ ((timeSeriesSplit 5 12).getD k ([], [])).1 →
        x ∈ ((timeSeriesSplit 5 12).getD (k + 1) ([], [])).1)) :=
  ⟨⟨by decide, by decide⟩, c6_fold_ordering 5 12 (by decide) (by decide)⟩

/-- C3 is violated by the code: the correlation criterion is thresholded
over `feature_cols + [target_col]`, and the target's correlation with itself
is 1 (its variance here is nonzero), so `'irradiance'` itself lands in the
selected-feature union of `feature_selection_analysis` — here with both
library score functions returning 0, so the correlation branch alone
produces it.  The claim (the target is never a member of the union) is the
spec's clear intent; the code's failure to drop the target from
`target_corr` before thresholding is the slip. -/
theorem c3_target_selects_itself :
    "irradiance" ∈
      feature_selection_analysis (fun _ => 0) (fun _ => 0) fsTable "irradiance" := by
  with_unfolding_all decide
